import Mathlib

/-!
Verification of the Family-Calendar Flask backend (`app.py`, `init_db.py`).

The service state is a pair of tables (`users`, `events`) held in SQLite;
the HTTP handlers in `app.py` are modelled as pure functions from a
database value, a session value and a request body to an outcome
(success / error response / unhandled Python exception) paired with the
database value left behind by the call.

SQLite TEXT values are modelled as Lean `String`s.  Comparisons on TEXT
columns use SQLite's default BINARY collation, which for the ASCII data
this application stores coincides with lexicographic order on code
points; it is modelled below by `listStrLt` on `String.data`.  Python's
`str.strip`, `int(...)` and `str(...)` are modelled by `pyStrip`,
`pyInt?` and `natStr`/`intStr`, written as structural recursion over
character lists so that all definitions evaluate on concrete inputs.
-/

/-- ASCII whitespace stripped by Python `str.strip()` (the application only
ever strips ASCII data). -/
def isPySpace (c : Char) : Bool := c == ' ' || c == '\t' || c == '\n' || c == '\r'

/-- Strip characters satisfying `isPySpace` from both ends of a char list. -/
def trimData (l : List Char) : List Char :=
  ((l.dropWhile isPySpace).reverse.dropWhile isPySpace).reverse

/-- Model of Python `s.strip()`. -/
def pyStrip (s : String) : String := ⟨trimData s.data⟩

/-- Strict lexicographic order on char lists by code point; this is SQLite's
BINARY collation on the ASCII strings stored by the application. -/
def listStrLt : List Char → List Char → Bool
  | [], [] => false
  | [], _ :: _ => true
  | _ :: _, [] => false
  | a :: as, b :: bs =>
    if a.toNat < b.toNat then true
    else if b.toNat < a.toNat then false
    else listStrLt as bs

/-- SQLite `<` on TEXT values. -/
def strLtB (a b : String) : Bool := listStrLt a.data b.data

/-- SQLite `<=` (and `>=`, flipped) on TEXT values. -/
def strLeB (a b : String) : Bool := !(strLtB b a)

/-- NULL-first comparison used by SQLite `ORDER BY` on a nullable TEXT column:
NULL sorts before every string. -/
def optStrLeB : Option String → Option String → Bool
  | none, _ => true
  | some _, none => false
  | some a, some b => strLeB a b

/-- Decimal digit character, `digitChar n = '0' + n` for `n < 10`. -/
def digitChar (n : Nat) : Char := Char.ofNat (48 + n)

/-- Decimal digits of `n`, most significant first; `fuel`-based so that the
definition is structurally recursive (any `fuel > n` yields the digits). -/
def natStrAux : Nat → Nat → List Char
  | 0, _ => []
  | fuel + 1, n =>
    if n < 10 then [digitChar n] else natStrAux fuel (n / 10) ++ [digitChar (n % 10)]

/-- Model of Python `str(n)` for a natural number. -/
def natStr (n : Nat) : String := ⟨natStrAux (n + 1) n⟩

/-- Model of Python `str(i)` for an integer. -/
def intStr : Int → String
  | .ofNat n => natStr n
  | .negSucc n => "-" ++ natStr (n + 1)

/-- Numeric value of a decimal digit character, if it is one. -/
def digit? (c : Char) : Option Nat :=
  if 48 ≤ c.toNat ∧ c.toNat ≤ 57 then some (c.toNat - 48) else none

/-- Value of a digit string read left to right on top of accumulator `acc`;
`none` as soon as a non-digit appears. -/
def digitsValAux : List Char → Nat → Option Nat
  | [], acc => some acc
  | c :: cs, acc =>
    match digit? c with
    | some d => digitsValAux cs (acc * 10 + d)
    | none => none

/-- Model of Python `int(s)` on the canonical decimal strings the application
handles: an optional minus sign followed by decimal digits (`none` here plays
the role of the `ValueError` that `int` raises on anything else). -/
def pyInt? (s : String) : Option Int :=
  match s.data with
  | [] => none
  | c :: cs =>
    if c = '-' then
      match cs with
      | [] => none
      | _ :: _ => (digitsValAux cs 0).map (fun n => -(n : Int))
    else (digitsValAux (c :: cs) 0).map (fun n => (n : Int))

/-- Model of the Python format spec `0>2` (pad on the left with `'0'` to
width 2) applied to an already formatted string. -/
def pad2 (s : String) : String :=
  if s.data.length = 0 then ⟨['0', '0']⟩
  else if s.data.length = 1 then ⟨'0' :: s.data⟩
  else s

/-- Row of the `users` table (`init_db.py`: id INTEGER PRIMARY KEY, name TEXT,
color TEXT). -/
structure User where
  id : Nat
  name : String
  color : String
deriving DecidableEq, Repr

/-- Row of the `events` table as `app.py` reads and writes it: id INTEGER
PRIMARY KEY, title TEXT NOT NULL, date TEXT NOT NULL, start_time / end_time
nullable TEXT, user_id INTEGER NOT NULL, created_at TEXT NOT NULL.  (The
`start_time`/`end_time` columns are the ones every statement in `app.py`
names; the schema actually created by `init_db.py` is recorded separately in
`initDbEventsColumns` below.) -/
structure EventRow where
  id : Nat
  title : String
  date : String
  start_time : Option String
  end_time : Option String
  user_id : Nat
  created_at : String
deriving DecidableEq, Repr

/-- The SQLite database: the two tables plus the AUTOINCREMENT counter that
assigns event ids. -/
structure DB where
  users : List User
  events : List EventRow
  nextEventId : Nat
deriving DecidableEq, Repr

/-- Flask server-side session: `session['user_id']` / `session['user_name']`,
each present or absent. -/
structure Session where
  user_id : Option Nat
  user_name : Option String
deriving DecidableEq, Repr

/-- Row produced by `SELECT e.*, u.name as user_name, u.color as user_color
FROM events e JOIN users u ON e.user_id = u.id`. -/
structure EnrichedEvent where
  id : Nat
  title : String
  date : String
  start_time : Option String
  end_time : Option String
  user_id : Nat
  created_at : String
  user_name : String
  user_color : String
deriving DecidableEq, Repr

/-- A field of a JSON request body: missing from the object, present with
value `null`, or present with a value.  `data.get(k)` yields Python `None`
in the first two cases; `data.get(k, d)` yields `d` only in the first. -/
inductive JField (α : Type) where
  | absent
  | null
  | val (v : α)
deriving DecidableEq, Repr

/-- Python `data.get(k, d)` for a string field: the default only applies when
the key is missing; an explicit JSON `null` comes back as `None` (modelled
as `none`). -/
def JField.getD : JField String → String → Option String
  | .absent, d => some d
  | .null, _ => none
  | .val s, _ => some s

/-- Python `data.get(k)` (default `None`). -/
def JField.get? {α : Type} : JField α → Option α
  | .absent => none
  | .null => none
  | .val v => some v

/-- JSON body of a POST/PUT `/api/events` request. -/
structure EventReq where
  title : JField String
  date : JField String
  start_time : JField String
  end_time : JField String
  user_id : JField Nat
deriving DecidableEq, Repr

/-- Python `x or None` applied to an optional string: empty string and `None`
both become SQL NULL (`app.py` lines 199 and 269). -/
def orNone : Option String → Option String
  | none => none
  | some s => if s = "" then none else some s

/-- Result of one HTTP call: a success response, an error response with its
status code and message, or an unhandled Python exception (Flask turns these
into HTTP 500).  Every constructor carries the database state the call left
behind. -/
inductive Outcome (α : Type) where
  | success (status : Nat) (body : α) (db : DB)
  | failure (status : Nat) (msg : String) (db : DB)
  | raised (db : DB)
deriving DecidableEq, Repr

/-- Result of a read-only query endpoint. -/
inductive QueryResult (α : Type) where
  | ok (val : α)
  | raised
deriving DecidableEq, Repr

/-- Joined row for one event and its owning user. -/
def mkEnriched (e : EventRow) (u : User) : EnrichedEvent :=
  { id := e.id, title := e.title, date := e.date, start_time := e.start_time,
    end_time := e.end_time, user_id := e.user_id, created_at := e.created_at,
    user_name := u.name, user_color := u.color }

/-- Inner join of one event row against `users` (`users.id` is the primary
key, so the first match is the only one). -/
def enrich (db : DB) (e : EventRow) : Option EnrichedEvent :=
  (db.users.find? (fun u => u.id == e.user_id)).map (mkEnriched e)

/-- `JOIN users u ON e.user_id = u.id` over a list of event rows: rows whose
owner does not exist are dropped by the inner join. -/
def joinUsers (db : DB) (es : List EventRow) : List EnrichedEvent :=
  es.filterMap (enrich db)

/-- The `ORDER BY e.date, e.start_time` comparison: ascending date, ties by
start_time with NULL first (both columns under BINARY collation). -/
def evLE (a b : EnrichedEvent) : Bool :=
  strLtB a.date b.date || (a.date == b.date && optStrLeB a.start_time b.start_time)

/-- Propositional form of `evLE`. -/
def evLEP (a b : EnrichedEvent) : Prop := evLE a b = true

instance : DecidableRel evLEP := fun _ _ => inferInstanceAs (Decidable (_ = true))

/-- Model of `ORDER BY e.date, e.start_time`: a permutation of the joined
rows sorted by `evLE` (SQL leaves the order of ties unspecified; insertion
sort picks one such order). -/
def sortEvents (l : List EnrichedEvent) : List EnrichedEvent :=
  List.insertionSort evLEP l

/-- Truthiness of `request.args.get(k)`: `None` and the empty string are
falsy. -/
def truthy : Option String → Bool
  | none => false
  | some s => !(s == "")

/-- The `start_date` string `f"{year}-{month:0>2}-01"` (`app.py` line 147). -/
def monthStartStr (ys ms : String) : String := ys ++ "-" ++ pad2 ms ++ "-01"

/-- The `end_date` string (`app.py` lines 148-151): January 1 of the next
year when the month is 12, otherwise the first of the next month.  `none`
models the `ValueError` from `int(year)`. -/
def monthEndStr (ys : String) (mi : Int) : Option String :=
  if mi = 12 then (pyInt? ys).map (fun yi => intStr (yi + 1) ++ "-01-01")
  else some (ys ++ "-" ++ pad2 (intStr (mi + 1)) ++ "-01")

/-- The SQL filter `e.date >= start_date AND e.date < end_date`. -/
def inMonthRange (startD endD : String) (e : EventRow) : Bool :=
  strLeB startD e.date && strLtB e.date endD

/-- GET `/api/events` (`app.py` get_events): optional year/month filter,
join with users, ordered by date then start_time.  `int(month)` (and
`int(year)` when month is 12) raise on non-numeric input. -/
def get_events (db : DB) (year month : Option String) : QueryResult (List EnrichedEvent) :=
  if truthy year && truthy month then
    match pyInt? (month.getD "") with
    | none => .raised
    | some mi =>
      match monthEndStr (year.getD "") mi with
      | none => .raised
      | some endD =>
        .ok (sortEvents (joinUsers db
          (db.events.filter (inMonthRange (monthStartStr (year.getD "") (month.getD "")) endD))))
  else
    .ok (sortEvents (joinUsers db db.events))

/-- POST `/api/events` (`app.py` create_event).  `now` is the value of
`datetime.now().isoformat()` at the call.  A JSON-null title raises
(`None.strip()`); inserting a NULL `user_id` violates the NOT NULL
constraint and raises; if the inserted row's owner does not exist the
re-select after the insert joins to nothing and `dict(None)` raises after
the commit, so the row is kept. -/
def create_event (db : DB) (sess : Session) (req : EventReq) (now : String) :
    Outcome EnrichedEvent :=
  match sess.user_id with
  | none => .failure 401 "Please log in first" db
  | some sessUid =>
    match (req.title.getD "").map pyStrip with
    | none => .raised db
    | some title =>
      let start_time := req.start_time.getD ""
      let end_time := req.end_time.getD ""
      let user_id? : Option Nat :=
        match req.user_id with
        | .absent => some sessUid
        | .null => none
        | .val n => some n
      if title == "" then .failure 400 "Title is required" db
      else
        match req.date.get? with
        | none => .failure 400 "Date is required" db
        | some date =>
          if date == "" then .failure 400 "Date is required" db
          else
            match user_id? with
            | none => .raised db
            | some uid =>
              let row : EventRow :=
                { id := db.nextEventId, title := title, date := date,
                  start_time := orNone start_time, end_time := orNone end_time,
                  user_id := uid, created_at := now }
              let db' : DB :=
                { db with events := db.events ++ [row], nextEventId := db.nextEventId + 1 }
              match enrich db' row with
              | some ev => .success 201 ev db'
              | none => .raised db'

/-- GET `/api/events/<id>` (`app.py` get_event): the enriched event, or 404
when the id does not exist or its owner joins to no user row. -/
def get_event (db : DB) (event_id : Nat) : Outcome EnrichedEvent :=
  match (db.events.find? (fun e => e.id == event_id)).bind (enrich db) with
  | some ev => .success 200 ev db
  | none => .failure 404 "Event not found" db

/-- The SET clause of the UPDATE in `app.py` update_event (lines 265-269):
full replace of title, date, start_time, end_time and user_id; `id` and
`created_at` are left as they were. -/
def replaceFields (title date : String) (st et : Option String) (uid : Nat)
    (e : EventRow) : EventRow :=
  { e with
    title := title, date := date, start_time := st, end_time := et,
    user_id := uid }

/-- Execution of the UPDATE plus the re-select of `app.py` update_event:
writing NULL into `events.user_id` (from an omitted or null field) violates
the NOT NULL constraint and raises with nothing changed; otherwise every row
with the id is replaced, and the re-select joins the new owner — when that
owner does not exist, the commit has already happened and `dict(None)`
raises with the update kept. -/
def performUpdate (db : DB) (event_id : Nat) (title date : String)
    (st et : Option String) (uid? : Option Nat) : Outcome EnrichedEvent :=
  match uid? with
  | none => .raised db
  | some uid =>
    let db' : DB := { db with events := db.events.map (fun e =>
      if e.id == event_id then replaceFields title date st et uid e else e) }
    match (db'.events.find? (fun e => e.id == event_id)).bind (enrich db') with
    | some ev => .success 200 ev db'
    | none => .raised db'

/-- PUT `/api/events/<id>` (`app.py` update_event).  `user_id` is read with
`data.get('user_id')` (no default): an absent or null field becomes NULL,
and the UPDATE then violates the NOT NULL constraint on `events.user_id`
and raises, leaving the row unchanged.  When the UPDATE succeeds the
re-select joins against `users`; if the new owner does not exist the commit
still happens and `dict(None)` raises afterwards. -/
def update_event (db : DB) (sess : Session) (event_id : Nat) (req : EventReq) :
    Outcome EnrichedEvent :=
  match sess.user_id with
  | none => .failure 401 "Please log in first" db
  | some _ =>
    match (req.title.getD "").map pyStrip with
    | none => .raised db
    | some title =>
      let start_time := req.start_time.getD ""
      let end_time := req.end_time.getD ""
      let user_id? : Option Nat := req.user_id.get?
      if title == "" then .failure 400 "Title is required" db
      else
        match req.date.get? with
        | none => .failure 400 "Date is required" db
        | some date =>
          if date == "" then .failure 400 "Date is required" db
          else
            match db.events.find? (fun e => e.id == event_id) with
            | none => .failure 404 "Event not found" db
            | some _ =>
              performUpdate db event_id title date (orNone start_time) (orNone end_time)
                user_id?

/-- DELETE `/api/events/<id>` (`app.py` delete_event). -/
def delete_event (db : DB) (sess : Session) (event_id : Nat) : Outcome String :=
  match sess.user_id with
  | none => .failure 401 "Please log in first" db
  | some _ =>
    match db.events.find? (fun e => e.id == event_id) with
    | none => .failure 404 "Event not found" db
    | some _ =>
      .success 200 "Event deleted successfully"
        { db with events := db.events.filter (fun e => !(e.id == event_id)) }

/-- POST `/api/login` (`app.py` login).  `if not user_id` is Python
truthiness: an absent or null field, and also the integer 0, fail the
check and give 400.  On success the session binding is replaced; on any
failure it is returned untouched. -/
def login (db : DB) (sess : Session) (body_user_id : JField Nat) :
    Outcome User × Session :=
  match body_user_id.get? with
  | none => (.failure 400 "User ID is required" db, sess)
  | some uid =>
    if uid == 0 then (.failure 400 "User ID is required" db, sess)
    else
      match db.users.find? (fun u => u.id == uid) with
      | none => (.failure 404 "User not found" db, sess)
      | some u => (.success 200 u db, { user_id := some u.id, user_name := some u.name })

/-- GET `/api/current-user` (`app.py` get_current_user): always HTTP 200,
with the bound user or an explicit no-user result. -/
def get_current_user (db : DB) (sess : Session) : Option User :=
  match sess.user_id with
  | none => none
  | some uid => db.users.find? (fun u => u.id == uid)

/-- `MAX(created_at)` over the current user's events carrying a given title
(the recency key of the `GROUP BY title` in get_saved_titles). -/
def lastUsed (db : DB) (uid : Nat) (t : String) : String :=
  ((db.events.filter (fun e => e.user_id == uid && e.title == t)).map
    (fun e => e.created_at)).foldl (fun a b => if strLtB a b then b else a) ""

/-- Ordering of `(title, last_used)` pairs for `ORDER BY last_used DESC`. -/
def titleOrdP (p q : String × String) : Prop := strLeB q.2 p.2 = true

instance : DecidableRel titleOrdP := fun _ _ => inferInstanceAs (Decidable (_ = true))

/-- GET `/api/saved-titles` (`app.py` get_saved_titles): empty list when no
session is bound; otherwise `SELECT title, MAX(created_at) as last_used FROM
events WHERE user_id = ? GROUP BY title ORDER BY last_used DESC LIMIT 10`. -/
def get_saved_titles (db : DB) (sess : Session) : List String :=
  match sess.user_id with
  | none => []
  | some uid =>
    ((List.insertionSort titleOrdP
      ((((db.events.filter (fun e => e.user_id == uid)).map (fun e => e.title)).dedup).map
        (fun t => (t, lastUsed db uid t)))).take 10).map (fun p => p.1)

/-- Column names of the `events` table that `init_db.py` actually creates
(lines 42-52): note `time`, with no `start_time` or `end_time`. -/
def initDbEventsColumns : List String :=
  ["id", "title", "date", "time", "user_id", "created_at"]

/-- Column names targeted by the INSERT in `app.py` create_event
(lines 196-199). -/
def createEventInsertColumns : List String :=
  ["title", "date", "start_time", "end_time", "user_id", "created_at"]

/-- Whether every column named by the INSERT exists in the created table;
when false, SQLite raises `OperationalError: no such column` and the request
fails with an HTTP 500 instead of inserting. -/
def insertColumnsExist : Bool :=
  createEventInsertColumns.all (fun c => initDbEventsColumns.contains c)

/-- First two of the family members seeded by `init_db.py`. -/
def userA : User := ⟨1, "Family Member A", "#4A90D9"⟩

/-- Second seeded family member. -/
def userB : User := ⟨2, "Family Member B", "#D94A4A"⟩

/-- Third seeded family member. -/
def userC : User := ⟨3, "Family Member C", "#4AD97B"⟩

/-- Fourth seeded family member. -/
def userD : User := ⟨4, "Family Member D", "#D9A84A"⟩

/-- Sample event owned by user 1, December 2024, with a start time. -/
def evDentist : EventRow :=
  ⟨1, "Dentist", "2024-12-15", some "09:00", none, 1, "2024-12-01T10:00:00"⟩

/-- Sample event owned by user 2, on New Year's Day 2025. -/
def evTrip : EventRow :=
  ⟨2, "Trip", "2025-01-01", none, none, 2, "2024-12-02T10:00:00"⟩

/-- Sample event owned by user 1, same date as `evDentist`, no start time. -/
def evParty : EventRow :=
  ⟨3, "Party", "2024-12-15", none, none, 1, "2024-12-03T10:00:00"⟩

/-- Sample event owned by user 1 in November 2024. -/
def evOld : EventRow :=
  ⟨4, "Old", "2024-11-30", some "08:00", none, 1, "2024-11-01T10:00:00"⟩

/-- Sample database used by the concrete witnesses. -/
def dbSample : DB := ⟨[userA, userB], [evDentist, evTrip, evParty, evOld], 5⟩

/-- Database as left by `init_db.py`: the four members, no events. -/
def dbSeeded : DB := ⟨[userA, userB, userC, userD], [], 1⟩

/-- Session logged in as user 1. -/
def sessA : Session := ⟨some 1, some "Family Member A"⟩

/-- Session with no user bound. -/
def sessNone : Session := ⟨none, none⟩

/-- Row of `dbSample` event 1 after the update exercised in the C3 witness. -/
def evDentistUpd : EventRow :=
  ⟨1, "X", "2024-12-16", none, none, 2, "2024-12-01T10:00:00"⟩

/-- `dbSample` after that update. -/
def dbSampleUpd : DB := ⟨[userA, userB], [evDentistUpd, evTrip, evParty, evOld], 5⟩

/-- Joined row for `evParty`. -/
def enParty : EnrichedEvent := mkEnriched evParty userA

/-- Joined row for `evDentist`. -/
def enDentist : EnrichedEvent := mkEnriched evDentist userA

/-- Joined row for `evOld`. -/
def enOld : EnrichedEvent := mkEnriched evOld userA

/-- Joined row for `evTrip`. -/
def enTrip : EnrichedEvent := mkEnriched evTrip userB

/-- Event row whose `user_id` (9) matches no user: an orphaned owner. -/
def evOrphan : EventRow :=
  ⟨6, "Ghost", "2024-12-20", none, none, 9, "2024-12-04T10:00:00"⟩

/-- `dbSample` plus the orphaned event. -/
def dbOrphan : DB := ⟨[userA, userB], [evDentist, evTrip, evParty, evOld, evOrphan], 7⟩

theorem listStrLt_irrefl (l : List Char) : listStrLt l l = false := by
  induction l with
  | nil => rfl
  | cons c cs ih => simp [listStrLt, ih]

theorem listStrLt_cons_iff {x y : Char} {xs ys : List Char} :
    listStrLt (x :: xs) (y :: ys) = true ↔
      x.toNat < y.toNat ∨ (x.toNat = y.toNat ∧ listStrLt xs ys = true) := by
  simp only [listStrLt]
  split_ifs with h1 h2
  · simp [h1]
  · simp only [Bool.false_eq_true, false_iff]
    rintro (h | ⟨h, -⟩) <;> omega
  · have hxy : x.toNat = y.toNat := by omega
    constructor
    · intro h
      exact Or.inr ⟨hxy, h⟩
    · rintro (h | ⟨-, h⟩)
      · omega
      · exact h

theorem listStrLt_trans :
    ∀ (a b c : List Char), listStrLt a b = true → listStrLt b c = true →
      listStrLt a c = true := by
  intro a
  induction a with
  | nil =>
    intro b c hab hbc
    cases b with
    | nil => simp [listStrLt] at hab
    | cons y ys =>
      cases c with
      | nil => simp [listStrLt] at hbc
      | cons z zs => simp [listStrLt]
  | cons x xs ih =>
    intro b c hab hbc
    cases b with
    | nil => simp [listStrLt] at hab
    | cons y ys =>
      cases c with
      | nil => simp [listStrLt] at hbc
      | cons z zs =>
        rw [listStrLt_cons_iff] at hab hbc ⊢
        rcases hab with h1 | ⟨h1, h1'⟩ <;> rcases hbc with h2 | ⟨h2, h2'⟩
        · exact Or.inl (Nat.lt_trans h1 h2)
        · exact Or.inl (by omega)
        · exact Or.inl (by omega)
        · exact Or.inr ⟨by omega, ih ys zs h1' h2'⟩

theorem listStrLt_eq_of_not :
    ∀ (a b : List Char), listStrLt a b = false → listStrLt b a = false → a = b := by
  intro a
  induction a with
  | nil =>
    intro b h1 _
    cases b with
    | nil => rfl
    | cons y ys => simp [listStrLt] at h1
  | cons x xs ih =>
    intro b h1 h2
    cases b with
    | nil => simp [listStrLt] at h2
    | cons y ys =>
      have h1' : ¬ (x.toNat < y.toNat ∨ (x.toNat = y.toNat ∧ listStrLt xs ys = true)) := by
        rw [← listStrLt_cons_iff]
        simp [h1]
      have h2' : ¬ (y.toNat < x.toNat ∨ (y.toNat = x.toNat ∧ listStrLt ys xs = true)) := by
        rw [← listStrLt_cons_iff]
        simp [h2]
      push_neg at h1' h2'
      have hxy : x.toNat = y.toNat := by omega
      have hchar : x = y := by
        apply Char.ext
        apply UInt32.ext
        simpa [Char.toNat] using hxy
      have htail : xs = ys := by
        refine ih ys ?_ ?_
        · exact Bool.not_eq_true _ ▸ (h1'.2 hxy)
        · exact Bool.not_eq_true _ ▸ (h2'.2 hxy.symm)
      rw [hchar, htail]

theorem strLtB_eq_of_not {a b : String} (h1 : strLtB a b = false)
    (h2 : strLtB b a = false) : a = b := by
  have := listStrLt_eq_of_not a.data b.data h1 h2
  cases a
  cases b
  exact congrArg String.mk this

theorem strLeB_trans {a b c : String} (h1 : strLeB a b = true) (h2 : strLeB b c = true) :
    strLeB a c = true := by
  simp only [strLeB, Bool.not_eq_true', strLtB] at h1 h2 ⊢
  by_cases hca : listStrLt c.data a.data = true
  · by_cases hab : listStrLt a.data b.data = true
    · have := listStrLt_trans _ _ _ hca hab
      rw [this] at h2
      cases h2
    · have hab' : a.data = b.data :=
        listStrLt_eq_of_not a.data b.data (by simpa using hab) h1
      rw [← hab'] at h2
      rw [h2] at hca
      cases hca
  · simpa using hca

theorem strLeB_total (a b : String) : strLeB a b = true ∨ strLeB b a = true := by
  by_cases h : strLeB a b = true
  · exact Or.inl h
  · refine Or.inr ?_
    simp only [strLeB, Bool.not_eq_true', Bool.not_eq_false] at h ⊢
    simp only [strLtB] at h ⊢
    by_contra hc
    rw [Bool.not_eq_false] at hc
    have := listStrLt_trans _ _ _ h hc
    rw [listStrLt_irrefl] at this
    cases this

theorem optStrLeB_trans {a b c : Option String} (h1 : optStrLeB a b = true)
    (h2 : optStrLeB b c = true) : optStrLeB a c = true := by
  cases a with
  | none => rfl
  | some x =>
    cases b with
    | none => simp [optStrLeB] at h1
    | some y =>
      cases c with
      | none => simp [optStrLeB] at h2
      | some z => exact strLeB_trans h1 h2

theorem optStrLeB_total (a b : Option String) :
    optStrLeB a b = true ∨ optStrLeB b a = true := by
  cases a with
  | none => exact Or.inl rfl
  | some x =>
    cases b with
    | none => exact Or.inr rfl
    | some y => exact strLeB_total x y

theorem evLEP_total (a b : EnrichedEvent) : evLEP a b ∨ evLEP b a := by
  unfold evLEP evLE
  by_cases hd : a.date = b.date
  · rcases optStrLeB_total a.start_time b.start_time with h | h
    · refine Or.inl ?_
      rw [hd]
      simp [h]
    · refine Or.inr ?_
      rw [hd]
      simp [h]
  · by_cases hlt : strLtB a.date b.date = true
    · exact Or.inl (by simp [hlt])
    · have : strLtB b.date a.date = true := by
        by_contra hlt2
        exact hd (strLtB_eq_of_not (by simpa using hlt) (by simpa using hlt2))
      exact Or.inr (by simp [this])

theorem evLEP_trans (a b c : EnrichedEvent) (hab : evLEP a b) (hbc : evLEP b c) :
    evLEP a c := by
  unfold evLEP evLE at hab hbc ⊢
  simp only [Bool.or_eq_true, Bool.and_eq_true, beq_iff_eq] at hab hbc ⊢
  rcases hab with hab | ⟨hab, hab'⟩ <;> rcases hbc with hbc | ⟨hbc, hbc'⟩
  · refine Or.inl ?_
    simp only [strLtB] at hab hbc ⊢
    exact listStrLt_trans _ _ _ hab hbc
  · exact Or.inl (hbc ▸ hab)
  · exact Or.inl (hab ▸ hbc)
  · exact Or.inr ⟨hab.trans hbc, optStrLeB_trans hab' hbc'⟩

theorem titleOrdP_total (p q : String × String) : titleOrdP p q ∨ titleOrdP q p := by
  unfold titleOrdP
  exact strLeB_total q.2 p.2

theorem titleOrdP_trans (p q r : String × String) (h1 : titleOrdP p q)
    (h2 : titleOrdP q r) : titleOrdP p r := by
  unfold titleOrdP at h1 h2 ⊢
  exact strLeB_trans h2 h1

theorem digit?_digitChar {n : Nat} (h : n < 10) : digit? (digitChar n) = some n := by
  interval_cases n <;> decide

theorem natStrAux_digits {fuel n : Nat} (h : n < fuel) :
    ∀ c ∈ natStrAux fuel n, 48 ≤ c.toNat ∧ c.toNat ≤ 57 := by
  induction fuel generalizing n with
  | zero => omega
  | succ fuel ih =>
    intro c hc
    rw [natStrAux] at hc
    by_cases h10 : n < 10
    · rw [if_pos h10] at hc
      simp only [List.mem_singleton] at hc
      subst hc
      interval_cases n <;> decide
    · rw [if_neg h10] at hc
      rcases List.mem_append.mp hc with hc | hc
      · exact ih (by omega) c hc
      · simp only [List.mem_singleton] at hc
        subst hc
        have : n % 10 < 10 := Nat.mod_lt _ (by omega)
        interval_cases hm : n % 10 <;> simp_all <;> decide

theorem natStrAux_ne_nil {fuel n : Nat} (h : n < fuel) : natStrAux fuel n ≠ [] := by
  cases fuel with
  | zero => omega
  | succ fuel =>
    rw [natStrAux]
    by_cases h10 : n < 10
    · simp [h10]
    · rw [if_neg h10]
      simp

theorem digitsValAux_append (xs ys : List Char) (acc : Nat) :
    digitsValAux (xs ++ ys) acc =
      match digitsValAux xs acc with
      | some a => digitsValAux ys a
      | none => none := by
  induction xs generalizing acc with
  | nil => rfl
  | cons c cs ih =>
    rw [List.cons_append, digitsValAux, digitsValAux]
    cases digit? c with
    | none => rfl
    | some d => exact ih _

theorem digitsValAux_natStrAux {fuel n : Nat} (h : n < fuel) (acc : Nat) :
    digitsValAux (natStrAux fuel n) acc =
      some (acc * 10 ^ (natStrAux fuel n).length + n) := by
  induction fuel generalizing n acc with
  | zero => omega
  | succ fuel ih =>
    rw [natStrAux]
    by_cases h10 : n < 10
    · rw [if_pos h10]
      simp [digitsValAux, digit?_digitChar h10]
    · rw [if_neg h10]
      have hdiv : n / 10 < fuel := by
        have h1 : n / 10 < n := Nat.div_lt_self (by omega) (by omega)
        omega
      rw [digitsValAux_append, ih hdiv acc]
      have hmod : n % 10 < 10 := Nat.mod_lt _ (by omega)
      simp only [digitsValAux, digit?_digitChar hmod]
      rw [List.length_append, List.length_singleton]
      congr 1
      have hnm : n / 10 * 10 + n % 10 = n := by omega
      have hpow : 10 ^ ((natStrAux fuel (n / 10)).length + 1) =
          10 ^ (natStrAux fuel (n / 10)).length * 10 := pow_succ 10 _
      rw [hpow]
      ring_nf
      omega

theorem pyInt?_natStr (n : Nat) : pyInt? (natStr n) = some (n : Int) := by
  have hne := natStrAux_ne_nil (Nat.lt_succ_self n)
  have hdig := natStrAux_digits (Nat.lt_succ_self n)
  have hval := digitsValAux_natStrAux (Nat.lt_succ_self n) 0
  cases hrepr : natStrAux (n + 1) n with
  | nil => exact absurd hrepr hne
  | cons c cs =>
    have hc : 48 ≤ c.toNat ∧ c.toNat ≤ 57 := hdig c (hrepr ▸ List.mem_cons_self c cs)
    have hcne : ¬ (c = '-') := by
      intro hEq
      subst hEq
      revert hc
      decide
    have hdata : (natStr n).data = c :: cs := hrepr
    rw [hrepr] at hval
    simp only [pyInt?, hdata, if_neg hcne]
    rw [hval]
    simp

theorem natStr_beq_empty (n : Nat) : (natStr n == "") = false := by
  have hne := natStrAux_ne_nil (Nat.lt_succ_self n)
  rw [beq_eq_false_iff_ne]
  intro h
  have : (natStr n).data = [] := by rw [h]
  exact hne this

theorem intStr_natCast (n : Nat) : intStr (n : Int) = natStr n := rfl

theorem enrich_eq_some {db : DB} {e : EventRow} {ev : EnrichedEvent}
    (h : enrich db e = some ev) :
    ev.id = e.id ∧ ∃ u ∈ db.users, u.id = e.user_id := by
  unfold enrich at h
  cases hf : db.users.find? (fun u => u.id == e.user_id) with
  | none =>
    rw [hf] at h
    cases h
  | some u =>
    rw [hf] at h
    simp only [Option.map_some', Option.some.injEq] at h
    refine ⟨by rw [← h]; rfl, u, List.mem_of_find?_eq_some hf, ?_⟩
    simpa using List.find?_some hf

theorem enrich_of_owner {db : DB} {e : EventRow}
    (h : ∃ u ∈ db.users, u.id = e.user_id) :
    ∃ ev, enrich db e = some ev ∧ ev.id = e.id := by
  have hsome : (db.users.find? (fun u => u.id == e.user_id)).isSome := by
    rw [List.find?_isSome]
    obtain ⟨u, hu, he⟩ := h
    exact ⟨u, hu, by simpa using he⟩
  obtain ⟨u, hu⟩ := Option.isSome_iff_exists.mp hsome
  exact ⟨mkEnriched e u, by simp [enrich, hu], rfl⟩

theorem mem_sortEvents {l : List EnrichedEvent} {ev : EnrichedEvent} :
    ev ∈ sortEvents l ↔ ev ∈ l :=
  (List.perm_insertionSort evLEP l).mem_iff

theorem sortEvents_pairwise (l : List EnrichedEvent) :
    (sortEvents l).Pairwise evLEP :=
  @List.sorted_insertionSort _ evLEP _ ⟨evLEP_total⟩ ⟨evLEP_trans⟩ l

theorem mem_joinUsers {db : DB} {es : List EventRow} {ev : EnrichedEvent} :
    ev ∈ joinUsers db es ↔ ∃ e ∈ es, enrich db e = some ev :=
  List.mem_filterMap

theorem mem_ids_sortJoin_iff {db : DB} {es : List EventRow}
    (hsub : ∀ x ∈ es, x ∈ db.events)
    (hids : (db.events.map (fun e => e.id)).Nodup)
    (hown : ∀ e ∈ db.events, ∃ u ∈ db.users, u.id = e.user_id)
    {e : EventRow} (he : e ∈ db.events) :
    e.id ∈ (sortEvents (joinUsers db es)).map (fun ev => ev.id) ↔ e ∈ es := by
  constructor
  · intro h
    obtain ⟨ev, hev, hid⟩ := List.mem_map.mp h
    obtain ⟨e', he', henr⟩ := mem_joinUsers.mp (mem_sortEvents.mp hev)
    have hide : e'.id = e.id := by
      rw [← (enrich_eq_some henr).1, hid]
    have : e' = e := List.inj_on_of_nodup_map hids (hsub e' he') he hide
    rw [← this]
    exact he'
  · intro h
    obtain ⟨ev, henr, hid⟩ := enrich_of_owner (hown e he)
    refine List.mem_map.mpr ⟨ev, ?_, hid⟩
    exact mem_sortEvents.mpr (mem_joinUsers.mpr ⟨e, h, henr⟩)

theorem get_events_ok_subset {db : DB} {oy om : Option String} {l : List EnrichedEvent}
    (h : get_events db oy om = .ok l) :
    ∀ ev ∈ l, ∃ e ∈ db.events, enrich db e = some ev := by
  unfold get_events at h
  split at h
  · split at h
    · exact absurd h (by simp)
    · split at h
      · exact absurd h (by simp)
      · simp only [QueryResult.ok.injEq] at h
        subst h
        intro ev hev
        obtain ⟨e, he, henr⟩ := mem_joinUsers.mp (mem_sortEvents.mp hev)
        exact ⟨e, (List.mem_filter.mp he).1, henr⟩
  · simp only [QueryResult.ok.injEq] at h
    subst h
    intro ev hev
    obtain ⟨e, he, henr⟩ := mem_joinUsers.mp (mem_sortEvents.mp hev)
    exact ⟨e, he, henr⟩

theorem get_events_ok_sorted {db : DB} {oy om : Option String} {l : List EnrichedEvent}
    (h : get_events db oy om = .ok l) : l.Pairwise evLEP := by
  unfold get_events at h
  split at h
  · split at h
    · exact absurd h (by simp)
    · split at h
      · exact absurd h (by simp)
      · simp only [QueryResult.ok.injEq] at h
        subst h
        exact sortEvents_pairwise _
  · simp only [QueryResult.ok.injEq] at h
    subst h
    exact sortEvents_pairwise _

/-- C1: the claim that CreateEvent inserts a row with columns title, date,
start_time, end_time, user_id, created_at into the events table cannot hold
on the shipped schema: `init_db.py` creates `events` with a `time` column
and no `start_time`/`end_time`, so the INSERT of `app.py` names columns
that do not exist and raises instead of inserting. -/
theorem C1_insert_schema_mismatch :
    insertColumnsExist = false ∧
    "start_time" ∈ createEventInsertColumns ∧
    "end_time" ∈ createEventInsertColumns ∧
    "start_time" ∉ initDbEventsColumns ∧
    "end_time" ∉ initDbEventsColumns ∧
    "time" ∈ initDbEventsColumns := by
  decide

/-- C9: with no session bound, CreateEvent, UpdateEvent and DeleteEvent all
answer 401 "Please log in first" and leave the database untouched, for every
request body and id — the session check runs before body parsing and
title/date validation, so a body lacking title or date still yields 401,
never 400 and never 404. -/
theorem C9_unauthorized_before_validation (db : DB) (sess : Session)
    (hs : sess.user_id = none) (req : EventReq) (eid : Nat) (now : String) :
    create_event db sess req now = .failure 401 "Please log in first" db ∧
    update_event db sess eid req = .failure 401 "Please log in first" db ∧
    delete_event db sess eid = .failure 401 "Please log in first" db := by
  unfold create_event update_event delete_event
  rw [hs]
  exact ⟨rfl, rfl, rfl⟩

/-- C9 witness: unauthenticated mutations on the seeded database, with a
body whose title is JSON null and whose date is missing, still give 401. -/
theorem C9_witness :
    create_event dbSeeded sessNone ⟨.null, .absent, .absent, .absent, .absent⟩ "t0" =
      .failure 401 "Please log in first" dbSeeded ∧
    update_event dbSeeded sessNone 7 ⟨.null, .absent, .absent, .absent, .absent⟩ =
      .failure 401 "Please log in first" dbSeeded ∧
    delete_event dbSeeded sessNone 7 = .failure 401 "Please log in first" dbSeeded :=
  C9_unauthorized_before_validation dbSeeded sessNone rfl
    ⟨.null, .absent, .absent, .absent, .absent⟩ 7 "t0"

/-- C6 (amended): Login with a nonzero user_id matching no user row fails
with 404 "User not found" and returns the session unchanged, so CurrentUser
still reports no user when none was bound; an absent or null user_id fails
with 400; and user_id 0 — which also matches no row — is caught by Python
truthiness and fails with 400 InvalidInput rather than 404. -/
theorem C6_login_not_found (db : DB) (sess : Session) (uid : Nat)
    (h0 : uid ≠ 0) (hno : ∀ u ∈ db.users, u.id ≠ uid) :
    login db sess (.val uid) = (.failure 404 "User not found" db, sess) ∧
    (sess.user_id = none → get_current_user db sess = none) ∧
    login db sess .absent = (.failure 400 "User ID is required" db, sess) ∧
    login db sess .null = (.failure 400 "User ID is required" db, sess) ∧
    login db sess (.val 0) = (.failure 400 "User ID is required" db, sess) := by
  have hfind : db.users.find? (fun u => u.id == uid) = none := by
    rw [List.find?_eq_none]
    intro u hu
    simpa using hno u hu
  have h0b : (uid == 0) = false := beq_eq_false_iff_ne.mpr h0
  refine ⟨?_, ?_, rfl, rfl, rfl⟩
  · simp [login, JField.get?, h0b, hfind]
  · intro h
    simp [get_current_user, h]

/-- C6 counterexample: user id 0 matches no row of the seeded users table,
yet Login answers 400 InvalidInput, not the 404 NotFound the claim requires
for every id matching no row (`if not user_id` treats 0 as absent). -/
theorem C6_counterexample :
    dbSeeded.users.all (fun u => !(u.id == 0)) = true ∧
    login dbSeeded sessNone (.val 0) =
      (.failure 400 "User ID is required" dbSeeded, sessNone) ∧
    (login dbSeeded sessNone (.val 0)).1 ≠ .failure 404 "User not found" dbSeeded := by
  refine ⟨by decide, by decide, by decide⟩

/-- C6 witness: logging in as the nonexistent user 9 on the seeded database
gives 404 and the untouched session; CurrentUser still reports no user. -/
theorem C6_witness :
    login dbSeeded sessNone (.val 9) = (.failure 404 "User not found" dbSeeded, sessNone) ∧
    get_current_user dbSeeded sessNone = none ∧
    login dbSeeded sessNone .absent =
      (.failure 400 "User ID is required" dbSeeded, sessNone) := by
  have h := C6_login_not_found dbSeeded sessNone 9 (by decide) (by decide)
  exact ⟨h.1, h.2.1 rfl, h.2.2.1⟩

/-- C7: with an active session and an id matching no event row, UpdateEvent
(with a valid title and date) and DeleteEvent both fail with 404
"Event not found" and return the events table unchanged (the outcome carries
the original database value). -/
theorem C7_missing_event_404 (db : DB) (sess : Session) (suid : Nat)
    (hs : sess.user_id = some suid) (eid : Nat)
    (hno : ∀ e ∈ db.events, e.id ≠ eid)
    (req : EventReq) (t : String) (ht : (req.title.getD "").map pyStrip = some t)
    (ht2 : t ≠ "") (d : String) (hd : req.date.get? = some d) (hd2 : d ≠ "") :
    update_event db sess eid req = .failure 404 "Event not found" db ∧
    delete_event db sess eid = .failure 404 "Event not found" db := by
  have hfind : db.events.find? (fun e => e.id == eid) = none := by
    rw [List.find?_eq_none]
    intro e he
    simpa using hno e he
  have htb : (t == "") = false := beq_eq_false_iff_ne.mpr ht2
  have hdb : (d == "") = false := beq_eq_false_iff_ne.mpr hd2
  constructor
  · simp [update_event, hs, ht, htb, hd, hdb, hfind]
  · simp [delete_event, hs, hfind]

/-- C7 witness: updating or deleting the nonexistent event 99 of the sample
database, as user 1 with a valid body, answers 404 with the database kept. -/
theorem C7_witness :
    update_event dbSample sessA 99 ⟨.val "X", .val "2024-12-16", .absent, .absent, .val 1⟩ =
      .failure 404 "Event not found" dbSample ∧
    delete_event dbSample sessA 99 = .failure 404 "Event not found" dbSample :=
  C7_missing_event_404 dbSample sessA 1 rfl 99 (by decide)
    ⟨.val "X", .val "2024-12-16", .absent, .absent, .val 1⟩ "X" (by decide) (by decide)
    "2024-12-16" rfl (by decide)

/-- C10: an event row whose user_id matches no user row is invisible through
the read API: GetEvent on its id answers 404 "Event not found", and no list
returned by ListEvents (filtered or not) contains its id — the enrichment is
an inner join on users. -/
theorem C10_orphan_invisible (db : DB) (eid : Nat)
    (horph : ∀ e ∈ db.events, e.id = eid → ∀ u ∈ db.users, u.id ≠ e.user_id) :
    get_event db eid = .failure 404 "Event not found" db ∧
    ∀ (oy om : Option String) (l : List EnrichedEvent),
      get_events db oy om = .ok l → ∀ ev ∈ l, ev.id ≠ eid := by
  constructor
  · unfold get_event
    cases hf : db.events.find? (fun e => e.id == eid) with
    | none => rfl
    | some e =>
      have he : e ∈ db.events := List.mem_of_find?_eq_some hf
      have heid : e.id = eid := by simpa using List.find?_some hf
      have hfindu : db.users.find? (fun u => u.id == e.user_id) = none := by
        rw [List.find?_eq_none]
        intro u hu
        simpa using horph e he heid u hu
      have henr : enrich db e = none := by simp [enrich, hfindu]
      simp [henr]
  · intro oy om l h ev hev hevid
    obtain ⟨e, he, henr⟩ := get_events_ok_subset h ev hev
    obtain ⟨hid, u, hu, huid⟩ := enrich_eq_some henr
    exact horph e he (by omega) u hu huid

/-- C10 witness: in `dbOrphan` event 6 is owned by the nonexistent user 9;
GetEvent(6) answers 404, the unfiltered ListEvents output omits it, and the
theorem yields that no listed row carries id 6. -/
theorem C10_witness :
    get_event dbOrphan 6 = .failure 404 "Event not found" dbOrphan ∧
    get_events dbOrphan none none = .ok [enOld, enParty, enDentist, enTrip] ∧
    enOld.id ≠ 6 := by
  have h := C10_orphan_invisible dbOrphan 6 (by decide)
  refine ⟨h.1, by decide, ?_⟩
  exact h.2 none none [enOld, enParty, enDentist, enTrip] (by decide) enOld (by decide)

theorem saved_titles_core (db : DB) (uid : Nat) (titles : List String)
    (hnd : titles.Nodup) :
    (((List.insertionSort titleOrdP (titles.map (fun t => (t, lastUsed db uid t)))).take 10).map
        (fun p => p.1)).length ≤ 10 ∧
    (((List.insertionSort titleOrdP (titles.map (fun t => (t, lastUsed db uid t)))).take 10).map
        (fun p => p.1)).Nodup ∧
    (∀ t ∈ ((List.insertionSort titleOrdP (titles.map (fun t => (t, lastUsed db uid t)))).take
        10).map (fun p => p.1), t ∈ titles) ∧
    (((List.insertionSort titleOrdP (titles.map (fun t => (t, lastUsed db uid t)))).take 10).map
        (fun p => p.1)).Pairwise
      (fun t1 t2 => strLeB (lastUsed db uid t2) (lastUsed db uid t1) = true) := by
  set pairs := titles.map (fun t => (t, lastUsed db uid t)) with hpairs
  set srt := List.insertionSort titleOrdP pairs with hsrt
  have hperm : srt.Perm pairs := List.perm_insertionSort titleOrdP pairs
  have hmem_pairs : ∀ p ∈ srt.take 10, p ∈ pairs := by
    intro p hp
    exact hperm.mem_iff.mp ((List.take_sublist 10 srt).subset hp)
  have hsnd : ∀ p ∈ srt.take 10, p.2 = lastUsed db uid p.1 := by
    intro p hp
    obtain ⟨t', -, ht'⟩ := List.mem_map.mp (hmem_pairs p hp)
    rw [← ht']
  refine ⟨?_, ?_, ?_, ?_⟩
  · rw [List.length_map, List.length_take]
    exact min_le_left _ _
  · have h1 : (pairs.map (fun p => p.1)).Nodup := by
      rw [hpairs, List.map_map]
      have hcomp : ((fun p : String × String => p.1) ∘ fun t => (t, lastUsed db uid t)) = id := by
        funext t
        rfl
      rw [hcomp, List.map_id]
      exact hnd
    have h2 : (srt.map (fun p => p.1)).Nodup := (hperm.map (fun p => p.1)).nodup_iff.mpr h1
    exact List.Nodup.sublist ((List.take_sublist 10 srt).map (fun p => p.1)) h2
  · intro t ht
    obtain ⟨p, hp, hpt⟩ := List.mem_map.mp ht
    obtain ⟨t', ht', hteq⟩ := List.mem_map.mp (hmem_pairs p hp)
    have h1 : p.1 = t' := by rw [← hteq]
    have hpt' : p.1 = t := hpt
    rw [← hpt', h1]
    exact ht'
  · rw [List.pairwise_map]
    have hsorted : srt.Pairwise titleOrdP :=
      @List.sorted_insertionSort _ titleOrdP _ ⟨titleOrdP_total⟩ ⟨titleOrdP_trans⟩ pairs
    have htake : (srt.take 10).Pairwise titleOrdP :=
      List.Pairwise.sublist (List.take_sublist 10 srt) hsorted
    refine htake.imp_of_mem ?_
    intro p q hp hq hpq
    have hp2 := hsnd p hp
    have hq2 := hsnd q hq
    unfold titleOrdP at hpq
    rw [hp2, hq2] at hpq
    exact hpq

/-- C5: for a session bound to user `uid`, SavedTitles returns at most 10
pairwise-distinct titles, each drawn from that user's events, ordered by
descending recency, where the recency of a title is `lastUsed` — the maximum
created_at over that user's events with that title; a session with no user
bound gets the empty list rather than an error. -/
theorem C5_saved_titles (db : DB) (sess : Session) (uid : Nat)
    (hs : sess.user_id = some uid) :
    (get_saved_titles db sess).length ≤ 10 ∧
    (get_saved_titles db sess).Nodup ∧
    (∀ t ∈ get_saved_titles db sess, ∃ e ∈ db.events, e.user_id = uid ∧ e.title = t) ∧
    (get_saved_titles db sess).Pairwise
      (fun t1 t2 => strLeB (lastUsed db uid t2) (lastUsed db uid t1) = true) ∧
    (∀ s2 : Session, s2.user_id = none → get_saved_titles db s2 = []) := by
  have hout : get_saved_titles db sess =
      ((List.insertionSort titleOrdP
        ((((db.events.filter (fun e => e.user_id == uid)).map (fun e => e.title)).dedup).map
          (fun t => (t, lastUsed db uid t)))).take 10).map (fun p => p.1) := by
    simp only [get_saved_titles, hs]
  have hcore := saved_titles_core db uid
    (((db.events.filter (fun e => e.user_id == uid)).map (fun e => e.title)).dedup)
    (List.nodup_dedup _)
  refine ⟨?_, ?_, ?_, ?_, ?_⟩
  · rw [hout]
    exact hcore.1
  · rw [hout]
    exact hcore.2.1
  · intro t ht
    rw [hout] at ht
    have ht2 := hcore.2.2.1 t ht
    have ht3 := List.mem_dedup.mp ht2
    obtain ⟨e, he, hety⟩ := List.mem_map.mp ht3
    have hef := List.mem_filter.mp he
    have hety' : e.title = t := hety
    exact ⟨e, hef.1, by simpa using hef.2, hety'⟩
  · rw [hout]
    exact hcore.2.2.2
  · intro s2 h2
    simp [get_saved_titles, h2]

/-- C5 witness: for the sample database and user 1, SavedTitles yields the
three titles Party, Dentist, Old in descending order of most recent use,
within the 10-row limit and without duplicates; an unbound session gets
the empty list. -/
theorem C5_witness :
    get_saved_titles dbSample sessA = ["Party", "Dentist", "Old"] ∧
    (get_saved_titles dbSample sessA).length ≤ 10 ∧
    (get_saved_titles dbSample sessA).Nodup ∧
    get_saved_titles dbSample sessNone = [] := by
  have h := C5_saved_titles dbSample sessA 1 rfl
  exact ⟨by decide, h.1, h.2.1, h.2.2.2.2 sessNone rfl⟩

theorem get_events_month_eq (db : DB) (ys ms : String) (mi : Int) (endD : String)
    (hty : truthy (some ys) = true) (htm : truthy (some ms) = true)
    (hmi : pyInt? ms = some mi) (hend : monthEndStr ys mi = some endD) :
    get_events db (some ys) (some ms) =
      .ok (sortEvents (joinUsers db
        (db.events.filter (inMonthRange (monthStartStr ys ms) endD)))) := by
  unfold get_events
  rw [hty, htm]
  simp only [Bool.and_self, if_true, Option.getD_some, hmi, hend]

theorem get_events_unfiltered (db : DB) (oy om : Option String)
    (h : oy = none ∨ om = none) :
    get_events db oy om = .ok (sortEvents (joinUsers db db.events)) := by
  unfold get_events
  rcases h with h | h <;> subst h <;> simp [truthy]

/-- C2: for 1 ≤ m ≤ 12, querying ListEvents with the canonical decimal
strings of y and m yields exactly the events (compared by id, under the
primary-key and owner-exists invariants) whose date lies in the half-open
string range [y-m-01, endD) with the month zero-padded to two digits, where
endD is the first of the following month and for m = 12 rolls over to
January 1 of year y + 1; when year or month is absent every event is
returned. -/
theorem C2_month_filter (db : DB) (y m : Nat) (hm1 : 1 ≤ m) (hm2 : m ≤ 12)
    (hids : (db.events.map (fun e => e.id)).Nodup)
    (hown : ∀ e ∈ db.events, ∃ u ∈ db.users, u.id = e.user_id) :
    (∃ l endD,
      get_events db (some (natStr y)) (some (natStr m)) = .ok l ∧
      monthEndStr (natStr y) (m : Int) = some endD ∧
      (m = 12 → endD = natStr (y + 1) ++ "-01-01") ∧
      (m < 12 → endD = natStr y ++ "-" ++ pad2 (natStr (m + 1)) ++ "-01") ∧
      (∀ e ∈ db.events,
        (inMonthRange (monthStartStr (natStr y) (natStr m)) endD e = true ↔
          e.id ∈ l.map (fun ev => ev.id)))) ∧
    (∃ l0,
      get_events db none none = .ok l0 ∧
      (∀ e ∈ db.events, e.id ∈ l0.map (fun ev => ev.id)) ∧
      (∀ ev ∈ l0, ∃ e ∈ db.events, e.id = ev.id) ∧
      (∀ oy om : Option String, oy = none ∨ om = none →
        get_events db oy om = .ok l0)) := by
  have hendSome : ∃ endD, monthEndStr (natStr y) (m : Int) = some endD ∧
      (m = 12 → endD = natStr (y + 1) ++ "-01-01") ∧
      (m < 12 → endD = natStr y ++ "-" ++ pad2 (natStr (m + 1)) ++ "-01") := by
    by_cases h12 : m = 12
    · subst h12
      refine ⟨natStr (y + 1) ++ "-01-01", ?_, fun _ => rfl, by omega⟩
      unfold monthEndStr
      rw [if_pos (by norm_num), pyInt?_natStr]
      simp only [Option.map_some', Option.some.injEq]
      rw [show ((y : Int) + 1) = ((y + 1 : Nat) : Int) by push_cast; ring, intStr_natCast]
    · have hlt : m < 12 := by omega
      refine ⟨natStr y ++ "-" ++ pad2 (natStr (m + 1)) ++ "-01", ?_, by omega, fun _ => rfl⟩
      unfold monthEndStr
      rw [if_neg (fun hc => h12 (by exact_mod_cast hc))]
      rw [show ((m : Int) + 1) = ((m + 1 : Nat) : Int) by push_cast; ring, intStr_natCast]
  obtain ⟨endD, hend, h12, hlt⟩ := hendSome
  have htm : truthy (some (natStr m)) = true := by
    simp [truthy, natStr_beq_empty]
  have hty : truthy (some (natStr y)) = true := by
    simp [truthy, natStr_beq_empty]
  have hget := get_events_month_eq db (natStr y) (natStr m) (m : Int) endD hty htm
    (pyInt?_natStr m) hend
  constructor
  · refine ⟨_, endD, hget, hend, h12, hlt, ?_⟩
    intro e he
    constructor
    · intro hin
      exact (mem_ids_sortJoin_iff (fun x hx => (List.mem_filter.mp hx).1) hids hown he).mpr
        (List.mem_filter.mpr ⟨he, hin⟩)
    · intro hin
      have hf := (mem_ids_sortJoin_iff (fun x hx => (List.mem_filter.mp hx).1) hids hown he).mp hin
      exact (List.mem_filter.mp hf).2
  · refine ⟨sortEvents (joinUsers db db.events),
      get_events_unfiltered db none none (Or.inl rfl), ?_, ?_, ?_⟩
    · intro e he
      exact (mem_ids_sortJoin_iff (fun x hx => hx) hids hown he).mpr he
    · intro ev hev
      obtain ⟨e, he, henr⟩ := mem_joinUsers.mp (mem_sortEvents.mp hev)
      exact ⟨e, he, ((enrich_eq_some henr).1).symm⟩
    · intro oy om h
      exact get_events_unfiltered db oy om h

/-- C2 witness: the December 2024 query over the sample database returns
exactly the two December events (Party before Dentist), its upper bound is
the rolled-over 2025-01-01, id 1 is listed and the January event id 2 is
not. -/
theorem C2_witness :
    get_events dbSample (some (natStr 2024)) (some (natStr 12)) = .ok [enParty, enDentist] ∧
    monthEndStr (natStr 2024) (12 : Int) = some "2025-01-01" ∧
    evDentist.id ∈ [enParty, enDentist].map (fun ev => ev.id) ∧
    ¬ evTrip.id ∈ [enParty, enDentist].map (fun ev => ev.id) := by
  have h := C2_month_filter dbSample 2024 12 (by omega) (by omega) (by decide) (by decide)
  obtain ⟨⟨l, endD, hget, hend, -, -, hmem⟩, -⟩ := h
  have hconc : get_events dbSample (some (natStr 2024)) (some (natStr 12)) =
      .ok [enParty, enDentist] := by decide
  have hl : l = [enParty, enDentist] := by
    have h2 := hget.symm.trans hconc
    exact (QueryResult.ok.injEq _ _).mp h2
  have hendc : endD = "2025-01-01" := by
    have h2 : monthEndStr (natStr 2024) ((12 : Nat) : Int) = some "2025-01-01" := by decide
    have h3 := hend.symm.trans h2
    exact (Option.some.injEq _ _).mp h3
  rw [hendc] at hmem
  refine ⟨hconc, by rw [← hendc]; exact hend, ?_, ?_⟩
  · have hd := (hmem evDentist (by decide)).mp (by decide)
    rwa [hl] at hd
  · intro hc
    have ht := (hmem evTrip (by decide)).mpr (by rw [hl]; exact hc)
    revert ht
    decide

/-- C8: every list ListEvents returns is sorted by `evLEP` — ascending date,
then ascending start_time with NULL (the stored form of an empty string)
before any time string on equal dates; a valid year/month filter matching no
event yields the empty list, and the unfiltered listing of an empty events
table is also empty — an empty result, never an error. -/
theorem C8_ordering_and_empty (db : DB) :
    (∀ (oy om : Option String) (l : List EnrichedEvent),
        get_events db oy om = .ok l → l.Pairwise evLEP) ∧
    (∀ (ys ms : String) (mi : Int) (endD : String),
        truthy (some ys) = true → truthy (some ms) = true →
        pyInt? ms = some mi → monthEndStr ys mi = some endD →
        (∀ e ∈ db.events, inMonthRange (monthStartStr ys ms) endD e = false) →
        get_events db (some ys) (some ms) = .ok []) ∧
    (db.events = [] → get_events db none none = .ok []) := by
  refine ⟨fun oy om l h => get_events_ok_sorted h, ?_, ?_⟩
  · intro ys ms mi endD hty htm hmi hend hnone
    have hfil : db.events.filter (inMonthRange (monthStartStr ys ms) endD) = [] := by
      rw [List.filter_eq_nil_iff]
      intro e he
      simp [hnone e he]
    rw [get_events_month_eq db ys ms mi endD hty htm hmi hend, hfil]
    rfl
  · intro hemp
    rw [get_events_unfiltered db none none (Or.inl rfl), hemp]
    rfl

/-- C8 witness: the December 2024 listing of the sample database is sorted
by `evLEP` (Party's NULL start_time before Dentist's "09:00" on the same
date); January 2024 matches no event and yields `[]`; the empty seeded
database lists to `[]` unfiltered. -/
theorem C8_witness :
    [enParty, enDentist].Pairwise evLEP ∧
    get_events dbSample (some "2024") (some "1") = .ok [] ∧
    get_events dbSeeded none none = .ok [] := by
  have h1 := C8_ordering_and_empty dbSample
  have h2 := C8_ordering_and_empty dbSeeded
  refine ⟨?_, ?_, h2.2.2 rfl⟩
  · exact h1.1 (some "2024") (some "12") [enParty, enDentist] (by decide)
  · exact h1.2.1 "2024" "1" 1 "2024-02-01" (by decide) (by decide) (by decide) (by decide)
      (by decide)

theorem performUpdate_some (db : DB) (eid : Nat) (t d : String) (st et : Option String)
    (nuid : Nat) (e0 : EventRow)
    (hfind : db.events.find? (fun e => e.id == eid) = some e0)
    (u : User) (huser : db.users.find? (fun v => v.id == nuid) = some u) :
    performUpdate db eid t d st et (some nuid) =
      .success 200 (mkEnriched (replaceFields t d st et nuid e0) u)
        { db with events := db.events.map (fun e =>
            if e.id == eid then replaceFields t d st et nuid e else e) } := by
  have he0 : (e0.id == eid) = true := by
    have h1 := List.find?_some hfind
    exact h1
  have hcomp : ((fun e : EventRow => e.id == eid) ∘ (fun e =>
      if e.id == eid then replaceFields t d st et nuid e else e)) =
      (fun e : EventRow => e.id == eid) := by
    funext e
    by_cases hc : (e.id == eid) = true
    · simp [Function.comp, hc, replaceFields]
    · simp [Function.comp, hc]
  have hfind2 : (db.events.map (fun e =>
      if e.id == eid then replaceFields t d st et nuid e else e)).find?
      (fun e => e.id == eid) = some (replaceFields t d st et nuid e0) := by
    rw [List.find?_map, hcomp, hfind]
    simp only [Option.map_some', Option.some.injEq]
    rw [if_pos he0]
  have henr : enrich { db with events := db.events.map (fun e =>
        if e.id == eid then replaceFields t d st et nuid e else e) }
      (replaceFields t d st et nuid e0) =
      some (mkEnriched (replaceFields t d st et nuid e0) u) := by
    show (db.users.find? (fun v => v.id == nuid)).map
      (mkEnriched (replaceFields t d st et nuid e0)) = _
    rw [huser]
    rfl
  simp only [performUpdate, hfind2, Option.some_bind, henr]

/-- C3 (amended): with an active session, an existing event id, a valid
title and date, and a supplied user_id referencing an existing user,
UpdateEvent performs a full replace of title, date, start_time, end_time
and user_id (keeping id and created_at) and returns the updated enriched
event; but when user_id is omitted from the request the UPDATE writes NULL
into the NOT NULL events.user_id column, so the call raises (HTTP 500) and
the table is left unchanged — the owner reference does not become unset. -/
theorem C3_full_replace (db : DB) (sess : Session) (suid : Nat)
    (hs : sess.user_id = some suid) (eid : Nat)
    (tF dF sF eF : JField String) (nuid : Nat)
    (t : String) (ht : (tF.getD "").map pyStrip = some t) (ht2 : t ≠ "")
    (d : String) (hd : dF.get? = some d) (hd2 : d ≠ "")
    (e0 : EventRow) (hfind : db.events.find? (fun e => e.id == eid) = some e0)
    (u : User) (huser : db.users.find? (fun v => v.id == nuid) = some u) :
    update_event db sess eid ⟨tF, dF, sF, eF, .val nuid⟩ =
      .success 200
        (mkEnriched (replaceFields t d (orNone (sF.getD "")) (orNone (eF.getD "")) nuid e0) u)
        { db with events := db.events.map (fun e =>
            if e.id == eid then
              replaceFields t d (orNone (sF.getD "")) (orNone (eF.getD "")) nuid e
            else e) } ∧
    update_event db sess eid ⟨tF, dF, sF, eF, .absent⟩ = .raised db := by
  have htb : (t == "") = false := beq_eq_false_iff_ne.mpr ht2
  have hdb : (d == "") = false := beq_eq_false_iff_ne.mpr hd2
  have hu : (JField.val nuid).get? = some nuid := rfl
  have ha : (JField.absent : JField Nat).get? = none := rfl
  constructor
  · simp only [update_event, hs, ht, htb, Bool.false_eq_true, if_false, hd, hdb, hfind, hu]
    exact performUpdate_some db eid t d (orNone (sF.getD "")) (orNone (eF.getD "")) nuid e0
      hfind u huser
  · simp only [update_event, hs, ht, htb, Bool.false_eq_true, if_false, hd, hdb, hfind, ha]
    rfl

/-- C3 counterexample: updating event 1 of the sample database with a valid
title and date but no user_id field raises an unhandled error instead of
succeeding, and the stored owners are untouched — the owner reference does
not become empty/unset and no updated event is returned. -/
theorem C3_counterexample :
    update_event dbSample sessA 1 ⟨.val "X", .val "2024-12-16", .absent, .absent, .absent⟩ =
      .raised dbSample ∧
    dbSample.events.map (fun e => e.user_id) = [1, 2, 1, 1] := by
  exact ⟨by decide, by decide⟩

/-- C3 witness: the same update with user_id 2 supplied fully replaces the
five fields of event 1 (created_at kept, owner changed to user 2) and
returns the enriched updated event; omitting user_id raises and leaves the
database unchanged. -/
theorem C3_witness :
    update_event dbSample sessA 1 ⟨.val "X", .val "2024-12-16", .absent, .absent, .val 2⟩ =
      .success 200 (mkEnriched evDentistUpd userB) dbSampleUpd ∧
    update_event dbSample sessA 1 ⟨.val "X", .val "2024-12-16", .absent, .absent, .absent⟩ =
      .raised dbSample := by
  have h := C3_full_replace dbSample sessA 1 rfl 1 (.val "X") (.val "2024-12-16")
    .absent .absent 2 "X" (by decide) (by decide) "2024-12-16" rfl (by decide)
    evDentist (by decide) userB (by decide)
  exact ⟨h.1.trans (by decide), h.2⟩

/-- C4 (amended): with an active session, a title that is absent, empty or
whitespace-only yields 400 "Title is required" with the database unchanged;
a JSON-null title raises an unhandled exception (None.strip()) instead of
400, also changing nothing; with a valid title, an absent or null date
yields 400 "Date is required" with no change — for CreateEvent and equally
for UpdateEvent on any id, since validation runs before the existence
check. -/
theorem C4_validation (db : DB) (sess : Session) (suid : Nat)
    (hs : sess.user_id = some suid) (now : String) (eid : Nat)
    (dF sF eF : JField String) (uF : JField Nat) :
    (create_event db sess ⟨.absent, dF, sF, eF, uF⟩ now =
      .failure 400 "Title is required" db) ∧
    (∀ ws, pyStrip ws = "" → create_event db sess ⟨.val ws, dF, sF, eF, uF⟩ now =
      .failure 400 "Title is required" db) ∧
    (create_event db sess ⟨.null, dF, sF, eF, uF⟩ now = .raised db) ∧
    (∀ tv, pyStrip tv ≠ "" →
      create_event db sess ⟨.val tv, .absent, sF, eF, uF⟩ now =
        .failure 400 "Date is required" db ∧
      create_event db sess ⟨.val tv, .null, sF, eF, uF⟩ now =
        .failure 400 "Date is required" db) ∧
    (update_event db sess eid ⟨.absent, dF, sF, eF, uF⟩ =
      .failure 400 "Title is required" db) ∧
    (∀ ws, pyStrip ws = "" → update_event db sess eid ⟨.val ws, dF, sF, eF, uF⟩ =
      .failure 400 "Title is required" db) ∧
    (update_event db sess eid ⟨.null, dF, sF, eF, uF⟩ = .raised db) ∧
    (∀ tv, pyStrip tv ≠ "" →
      update_event db sess eid ⟨.val tv, .absent, sF, eF, uF⟩ =
        .failure 400 "Date is required" db ∧
      update_event db sess eid ⟨.val tv, .null, sF, eF, uF⟩ =
        .failure 400 "Date is required" db) := by
  have hps : pyStrip "" = "" := by decide
  refine ⟨?_, ?_, ?_, ?_, ?_, ?_, ?_, ?_⟩
  · simp [create_event, hs, JField.getD, hps]
  · intro ws hws
    simp [create_event, hs, JField.getD, hws]
  · simp [create_event, hs, JField.getD]
  · intro tv htv
    have hvb : (pyStrip tv == "") = false := beq_eq_false_iff_ne.mpr htv
    constructor
    · simp [create_event, hs, JField.getD, JField.get?, hvb]
    · simp [create_event, hs, JField.getD, JField.get?, hvb]
  · simp [update_event, hs, JField.getD, hps]
  · intro ws hws
    simp [update_event, hs, JField.getD, hws]
  · simp [update_event, hs, JField.getD]
  · intro tv htv
    have hvb : (pyStrip tv == "") = false := beq_eq_false_iff_ne.mpr htv
    constructor
    · simp [update_event, hs, JField.getD, JField.get?, hvb]
    · simp [update_event, hs, JField.getD, JField.get?, hvb]

/-- C4 counterexample: a logged-in CreateEvent whose title is JSON null
raises an unhandled exception — `data.get('title','')` returns None and
`None.strip()` fails with AttributeError (HTTP 500) — instead of the 400
InvalidInput the claim requires for a null title; no row is added either
way. -/
theorem C4_counterexample :
    create_event dbSample sessA ⟨.null, .val "2024-12-20", .absent, .absent, .absent⟩ "t1" =
      .raised dbSample ∧
    create_event dbSample sessA ⟨.null, .val "2024-12-20", .absent, .absent, .absent⟩ "t1" ≠
      .failure 400 "Title is required" dbSample := by
  exact ⟨by decide, by decide⟩

/-- C4 witness: whitespace-only title 400, null title raised, absent date
400 for CreateEvent, and absent title 400 for UpdateEvent, all on the sample
database with the database returned unchanged. -/
theorem C4_witness :
    create_event dbSample sessA ⟨.val " \t ", .val "2024-12-20", .absent, .absent, .absent⟩
      "t1" = .failure 400 "Title is required" dbSample ∧
    create_event dbSample sessA ⟨.null, .val "2024-12-20", .absent, .absent, .absent⟩ "t1" =
      .raised dbSample ∧
    create_event dbSample sessA ⟨.val "Lunch", .absent, .absent, .absent, .absent⟩ "t1" =
      .failure 400 "Date is required" dbSample ∧
    update_event dbSample sessA 1 ⟨.absent, .val "2024-12-20", .absent, .absent, .absent⟩ =
      .failure 400 "Title is required" dbSample := by
  have h := C4_validation dbSample sessA 1 rfl "t1" 1 (.val "2024-12-20") .absent .absent
    .absent
  exact ⟨h.2.1 " \t " (by decide), h.2.2.1, (h.2.2.2.1 "Lunch" (by decide)).1,
    h.2.2.2.2.1⟩
